import Mathlib

/-!
# Verification of the audio transcoding pipeline of `text-to-voice-bangla`

The repository's core (per its specification) is the pipeline
base64 payload → raw PCM bytes → `AudioBuffer` → WAV container, plus the
application-level glue in `App.tsx` and the Gemini service layer.

The audio utility module `src/utils/audioUtils.ts` (holding `decode`,
`decodeAudioData` and `audioBufferToWav`) is referenced by the application
code but its source file is not part of the source snapshot, so those three
functions are modelled from the specification's own description of their
contracts and algorithms.  The application code (`App.tsx`,
`components/VoiceSelector.tsx` with its concatenated service modules, and
the legacy single-speaker `App`) is embedded directly from the source.

Samples are modelled as exact rationals (`ℚ`); the source uses IEEE doubles,
but every property checked here is arithmetic on values of the form
`k / 32768` and rounding of `s * 32767`, which the rational model captures
exactly.
-/

/-! ## Byte-level helpers -/

/-- Little-endian unsigned 16-bit encoding of `v % 2^16` (as a DataView
`setUint16(..., true)` would write it). -/
def u16LE (v : ℕ) : List ℕ := [v % 256, v / 256 % 256]

/-- Little-endian unsigned 32-bit encoding of `v % 2^32`. -/
def u32LE (v : ℕ) : List ℕ :=
  [v % 256, v / 256 % 256, v / 65536 % 256, v / 16777216 % 256]

/-- Two little-endian bytes read back as a signed 16-bit integer. -/
def bytesToInt16LE (lo hi : ℕ) : ℤ :=
  if lo % 256 + 256 * (hi % 256) < 32768 then ((lo % 256 + 256 * (hi % 256) : ℕ) : ℤ)
  else ((lo % 256 + 256 * (hi % 256) : ℕ) : ℤ) - 65536

/-- Little-endian byte pair of a signed 16-bit value (two's complement,
reduced mod 2^16 as a DataView `setInt16` would). -/
def int16ToBytesLE (v : ℤ) : List ℕ :=
  [(v % 65536).toNat % 256, (v % 65536).toNat / 256]

/-! ## Data model (spec §3) -/

/-- Modelled from the spec: the `AudioBuffer` value produced by
`src/utils/audioUtils.ts` (file absent from the snapshot).  Per §3 it carries
a sample rate, a channel count, a frame count and one sample sequence per
channel; samples are modelled as exact rationals. -/
structure AudioBuffer where
  sampleRate : ℕ
  channelCount : ℕ
  frameCount : ℕ
  channelData : List (List ℚ)
deriving Repr, DecidableEq

/-! ## PCM audio decoder (spec §4.2) -/

/-- Modelled from the spec: the per-pair pass of `decodeAudioData` in
`src/utils/audioUtils.ts` (file absent from the snapshot): consecutive byte
pairs are read as little-endian signed 16-bit integers and normalized by
dividing by 32768; a trailing odd byte is ignored. -/
def pcmSamples : List ℕ → List ℚ
  | lo :: hi :: rest => (bytesToInt16LE lo hi : ℚ) / 32768 :: pcmSamples rest
  | _ => []

/-- Modelled from the spec: `decodeAudioData` of `src/utils/audioUtils.ts`
(file absent from the snapshot).  Fails with `InvalidFormatError` when
`sampleRate ≤ 0` or `channelCount < 1`; otherwise decodes little-endian
int16 PCM, routes samples round-robin into the channels, and drops any
trailing bytes that do not fill a complete interleaved frame. -/
def decodeAudioData (bytes : List ℕ) (sampleRate channelCount : ℤ) :
    Except String AudioBuffer :=
  if sampleRate ≤ 0 ∨ channelCount < 1 then .error "InvalidFormatError"
  else
    let c := channelCount.toNat
    let samples := pcmSamples bytes
    let n := samples.length / c
    .ok { sampleRate := sampleRate.toNat
          channelCount := c
          frameCount := n
          channelData :=
            (List.range c).map fun i =>
              (List.range n).map fun f => samples.getD (f * c + i) 0 }

/-! ## WAV encoder (spec §4.3) -/

/-- Modelled from the spec: the re-quantization step of `audioBufferToWav`
in `src/utils/audioUtils.ts` (file absent from the snapshot):
`clamp(round(sample * 32767), -32768, 32767)`.  `round` is Mathlib's
round-half-up, which agrees with JavaScript's `Math.round`. -/
def quantize (s : ℚ) : ℤ := min 32767 (max (-32768) (round (s * 32767)))

/-- Sample of channel `i` at frame `f` (0 when out of range, which the
encoder's precondition rules out). -/
def sampleAt (buf : AudioBuffer) (i f : ℕ) : ℚ :=
  (buf.channelData.getD i []).getD f 0

/-- Modelled from the spec: the channel interleaving of `audioBufferToWav`
(frame-major, channels in input order). -/
def interleave (buf : AudioBuffer) : List ℚ :=
  (List.range buf.frameCount).flatMap fun f =>
    (List.range buf.channelCount).map fun i => sampleAt buf i f

/-- Modelled from the spec: the 44-byte RIFF/WAVE header emitted by
`audioBufferToWav` for 16-bit PCM. -/
def wavHeader (sampleRate channelCount frameCount : ℕ) : List ℕ :=
  let dataSize := frameCount * channelCount * 2
  [82, 73, 70, 70]                             -- "RIFF"
    ++ u32LE (36 + dataSize)                   -- total size minus 8
    ++ [87, 65, 86, 69]                        -- "WAVE"
    ++ [102, 109, 116, 32]                     -- "fmt "
    ++ u32LE 16                                -- subchunk1 size
    ++ u16LE 1                                 -- audio format: PCM
    ++ u16LE channelCount
    ++ u32LE sampleRate
    ++ u32LE (sampleRate * channelCount * 2)   -- byte rate
    ++ u16LE (channelCount * 2)                -- block align
    ++ u16LE 16                                -- bits per sample
    ++ [100, 97, 116, 97]                      -- "data"
    ++ u32LE dataSize

/-- Modelled from the spec: `audioBufferToWav` of `src/utils/audioUtils.ts`
(file absent from the snapshot): the 44-byte header followed by the
interleaved, re-quantized samples as little-endian int16 pairs. -/
def audioBufferToWav (buf : AudioBuffer) : List ℕ :=
  wavHeader buf.sampleRate buf.channelCount buf.frameCount
    ++ (interleave buf).flatMap fun s => int16ToBytesLE (quantize s)

/-! ## Structural lemmas about the encoder and decoder -/

theorem wavHeader_length (r c n : ℕ) : (wavHeader r c n).length = 44 := rfl

theorem interleave_length (buf : AudioBuffer) :
    (interleave buf).length = buf.frameCount * buf.channelCount := by
  simp [interleave, List.length_flatMap, Function.comp_def, List.map_const]

theorem sampleBytes_length (l : List ℚ) :
    (l.flatMap fun s => int16ToBytesLE (quantize s)).length = 2 * l.length := by
  induction l with
  | nil => rfl
  | cons s rest ih =>
      rw [List.flatMap_cons, List.length_append, ih]
      have h2 : (int16ToBytesLE (quantize s)).length = 2 := rfl
      rw [h2, List.length_cons]
      omega

theorem pcmSamples_cons (a b : ℕ) (t : List ℕ) :
    pcmSamples (a :: b :: t) = (bytesToInt16LE a b : ℚ) / 32768 :: pcmSamples t := rfl

theorem pcmSamples_length : ∀ bytes : List ℕ, (pcmSamples bytes).length = bytes.length / 2
  | [] => rfl
  | [b] => by
      have h : pcmSamples [b] = [] := rfl
      simp [h]
  | _ :: _ :: rest => by
      rw [pcmSamples_cons, List.length_cons, pcmSamples_length rest]
      simp only [List.length_cons]
      omega

theorem audioBufferToWav_drop (buf : AudioBuffer) :
    (audioBufferToWav buf).drop 44
      = (interleave buf).flatMap fun s => int16ToBytesLE (quantize s) := by
  rw [audioBufferToWav, ← wavHeader_length buf.sampleRate buf.channelCount buf.frameCount,
    List.drop_left]

theorem audioBufferToWav_take (buf : AudioBuffer) :
    (audioBufferToWav buf).take 44
      = wavHeader buf.sampleRate buf.channelCount buf.frameCount := by
  rw [audioBufferToWav, ← wavHeader_length buf.sampleRate buf.channelCount buf.frameCount,
    List.take_left]

theorem quantize_le (s : ℚ) : quantize s ≤ 32767 := min_le_left _ _

theorem le_quantize (s : ℚ) : -32768 ≤ quantize s :=
  le_min (by norm_num) (le_max_left _ _)

theorem bytesToInt16LE_int16ToBytesLE (v : ℤ) (h1 : -32768 ≤ v) (h2 : v ≤ 32767) :
    bytesToInt16LE ((v % 65536).toNat % 256) ((v % 65536).toNat / 256) = v := by
  unfold bytesToInt16LE
  split <;> omega

theorem pcmSamples_sampleBytes (l : List ℚ) :
    pcmSamples (l.flatMap fun s => int16ToBytesLE (quantize s))
      = l.map fun s => ((quantize s : ℤ) : ℚ) / 32768 := by
  induction l with
  | nil => rfl
  | cons s rest ih =>
      have h := bytesToInt16LE_int16ToBytesLE (quantize s) (le_quantize s) (quantize_le s)
      have hunf : int16ToBytesLE (quantize s)
          = [(quantize s % 65536).toNat % 256, (quantize s % 65536).toNat / 256] := rfl
      rw [List.flatMap_cons, hunf, List.cons_append, List.cons_append, List.nil_append,
        pcmSamples_cons, h, ih, List.map_cons]

/-- Element `k * C + j` of a flatMap whose pieces all have length `C` is
element `j` of piece `k`. -/
theorem getD_flatMap_const {α β : Type} (g : α → List β) (C : ℕ) (d : β)
    (hg : ∀ x, (g x).length = C) :
    ∀ (l : List α) (k j : ℕ), j < C → (hk : k < l.length) →
      (l.flatMap g).getD (k * C + j) d = (g l[k]).getD j d := by
  intro l
  induction l with
  | nil => intro k j _ hk; exact absurd hk (by simp)
  | cons x rest ih =>
      intro k j hj hk
      match k with
      | 0 =>
          simp only [List.flatMap_cons, Nat.zero_mul, Nat.zero_add]
          have hlt : j < (g x).length := by rw [hg x]; exact hj
          simp [List.getD_eq_getElem?_getD, List.getElem?_append, hlt]
      | k + 1 =>
          have hk' : k < rest.length := by simpa using hk
          have harith : (k + 1) * C + j = (g x).length + (k * C + j) := by
            rw [hg x]; ring
          simp only [List.flatMap_cons, harith]
          rw [List.getD_eq_getElem?_getD, List.getElem?_append_right (by omega),
            Nat.add_sub_cancel_left, ← List.getD_eq_getElem?_getD]
          simpa using ih k j hj hk'

theorem interleave_getD (buf : AudioBuffer) (i f : ℕ)
    (hi : i < buf.channelCount) (hf : f < buf.frameCount) :
    (interleave buf).getD (f * buf.channelCount + i) 0 = sampleAt buf i f := by
  rw [interleave]
  rw [getD_flatMap_const _ buf.channelCount 0 (by intro x; simp) _ f i hi
    (by simpa using hf)]
  have hf' : f < (List.range buf.frameCount).length := by simpa using hf
  have hi' : i < (List.range buf.channelCount).length := by simpa using hi
  simp [List.getD_eq_getElem?_getD, List.getElem?_map, List.getElem?_range, hi]

/-! ## Claims about the WAV encoder and PCM decoder -/

/-- C1: for every `AudioBuffer` with `frameCount = N` and `channelCount = C`
(each channel array of length `N`), the byte sequence returned by
`audioBufferToWav` has length exactly `44 + N*C*2`. -/
theorem audioBufferToWav_length (buf : AudioBuffer)
    (_hn : buf.channelData.length = buf.channelCount)
    (_hc : ∀ ch ∈ buf.channelData, ch.length = buf.frameCount) :
    (audioBufferToWav buf).length = 44 + buf.frameCount * buf.channelCount * 2 := by
  rw [audioBufferToWav, List.length_append, wavHeader_length, sampleBytes_length,
    interleave_length]
  ring

/-- Witness for C1 at a concrete 2-channel, 2-frame buffer. -/
theorem audioBufferToWav_length_witness :
    (audioBufferToWav ⟨24000, 2, 2, [[1/2, 0], [0, 1/2]]⟩).length = 44 + 2 * 2 * 2 :=
  audioBufferToWav_length ⟨24000, 2, 2, [[1/2, 0], [0, 1/2]]⟩ (by decide) (by decide)

/-- C2: with valid parameters, `decodeAudioData` yields
`frameCount = ⌊len / (C*2)⌋`; a buffer of length `4k+1` with two channels
yields exactly `k` frames; `frameCount*C*2 ≤ len` always holds, with at most
`C*2 - 1` trailing bytes discarded without error. -/
theorem decodeAudioData_frameCount :
    (∀ (bytes : List ℕ) (r c : ℤ), 0 < r → 1 ≤ c →
      ∃ buf, decodeAudioData bytes r c = .ok buf
        ∧ buf.frameCount = bytes.length / (c.toNat * 2)
        ∧ buf.frameCount * c.toNat * 2 ≤ bytes.length
        ∧ bytes.length - buf.frameCount * c.toNat * 2 ≤ c.toNat * 2 - 1)
    ∧ (∀ (bytes : List ℕ) (r : ℤ) (k : ℕ), 0 < r → bytes.length = 4 * k + 1 →
      ∃ buf, decodeAudioData bytes r 2 = .ok buf ∧ buf.frameCount = k) := by
  constructor
  · intro bytes r c hr hc
    have hcond : ¬ (r ≤ 0 ∨ c < 1) := by omega
    have hc0 : 0 < c.toNat := by omega
    rw [decodeAudioData, if_neg hcond]
    have hq : (pcmSamples bytes).length / c.toNat = bytes.length / (c.toNat * 2) := by
      rw [pcmSamples_length, Nat.div_div_eq_div_mul, Nat.mul_comm 2 c.toNat]
    refine ⟨_, rfl, ?_, ?_, ?_⟩
    · exact hq
    · show (pcmSamples bytes).length / c.toNat * c.toNat * 2 ≤ bytes.length
      rw [hq]
      have hprod : bytes.length / (c.toNat * 2) * c.toNat * 2
          = c.toNat * 2 * (bytes.length / (c.toNat * 2)) := by ring
      rw [hprod]
      have hdm := Nat.div_add_mod bytes.length (c.toNat * 2)
      omega
    · show bytes.length - (pcmSamples bytes).length / c.toNat * c.toNat * 2
        ≤ c.toNat * 2 - 1
      rw [hq]
      have hprod : bytes.length / (c.toNat * 2) * c.toNat * 2
          = c.toNat * 2 * (bytes.length / (c.toNat * 2)) := by ring
      rw [hprod]
      have hdm := Nat.div_add_mod bytes.length (c.toNat * 2)
      have hmod : bytes.length % (c.toNat * 2) < c.toNat * 2 := Nat.mod_lt _ (by omega)
      omega
  · intro bytes r k hr hlen
    have hcond : ¬ (r ≤ 0 ∨ (2 : ℤ) < 1) := by omega
    rw [decodeAudioData, if_neg hcond]
    refine ⟨_, rfl, ?_⟩
    show (pcmSamples bytes).length / 2 = k
    rw [pcmSamples_length, hlen]
    omega

/-- Witness for C2: four bytes mono give two frames; five bytes stereo give
one frame. -/
theorem decodeAudioData_frameCount_witness :
    (∃ buf, decodeAudioData [0, 64, 0, 192] 24000 1 = .ok buf
      ∧ buf.frameCount = [0, 64, 0, 192].length / ((1 : ℤ).toNat * 2)
      ∧ buf.frameCount * (1 : ℤ).toNat * 2 ≤ [0, 64, 0, 192].length
      ∧ [0, 64, 0, 192].length - buf.frameCount * (1 : ℤ).toNat * 2
          ≤ (1 : ℤ).toNat * 2 - 1)
    ∧ (∃ buf, decodeAudioData [7, 7, 7, 7, 7] 24000 2 = .ok buf
        ∧ buf.frameCount = 1) :=
  ⟨decodeAudioData_frameCount.1 [0, 64, 0, 192] 24000 1 (by decide) (by decide),
   decodeAudioData_frameCount.2 [7, 7, 7, 7, 7] 24000 1 (by decide) (by decide)⟩

/-- C4: the first 44 bytes of the encoder output are exactly the RIFF header
("RIFF", total size minus 8, "WAVE", "fmt ", 16, PCM format 1, channel count,
sample rate, byte rate, block align, 16 bits per sample, "data", data size,
multi-byte fields little-endian), and the interleaved 16-bit little-endian
sample data follows immediately. -/
theorem audioBufferToWav_header (buf : AudioBuffer) :
    (audioBufferToWav buf).take 44
      = [82, 73, 70, 70]
        ++ u32LE (36 + buf.frameCount * buf.channelCount * 2)
        ++ [87, 65, 86, 69] ++ [102, 109, 116, 32]
        ++ u32LE 16 ++ u16LE 1 ++ u16LE buf.channelCount ++ u32LE buf.sampleRate
        ++ u32LE (buf.sampleRate * buf.channelCount * 2)
        ++ u16LE (buf.channelCount * 2) ++ u16LE 16
        ++ [100, 97, 116, 97] ++ u32LE (buf.frameCount * buf.channelCount * 2)
    ∧ (audioBufferToWav buf).drop 44
        = (interleave buf).flatMap fun s => int16ToBytesLE (quantize s) :=
  ⟨audioBufferToWav_take buf, audioBufferToWav_drop buf⟩

/-- C3: the emitted PCM data re-quantizes every sample `s` as
`clamp(round(s * 32767), -32768, 32767)`; a buffer containing the sample
`1.5` emits the bytes `255, 127`, i.e. the maximum value 32767, not a
wrapped value. -/
theorem audioBufferToWav_quantization :
    (∀ buf : AudioBuffer, (audioBufferToWav buf).drop 44
        = (interleave buf).flatMap fun s =>
            int16ToBytesLE (min 32767 (max (-32768) (round (s * 32767)))))
    ∧ (∀ r : ℕ, (audioBufferToWav ⟨r, 1, 1, [[3/2]]⟩).drop 44 = [255, 127]) := by
  constructor
  · intro buf
    exact audioBufferToWav_drop buf
  · intro r
    rw [audioBufferToWav_drop]
    have hq : quantize (3/2) = 32767 := by rw [quantize]; norm_num [round_eq]
    have hil : interleave ⟨r, 1, 1, [[3/2]]⟩ = [3/2] := by
      simp [interleave, sampleAt]
      rfl
    rw [hil, List.flatMap_cons, hq]
    rfl

/-- C5: `decodeAudioData` fails, with `InvalidFormatError`, exactly when
`sampleRate ≤ 0` or `channelCount < 1`; with valid parameters an empty byte
buffer is not an error and yields `frameCount = 0`. -/
theorem decodeAudioData_error_iff :
    (∀ (bytes : List ℕ) (r c : ℤ),
      decodeAudioData bytes r c = .error "InvalidFormatError" ↔ (r ≤ 0 ∨ c < 1))
    ∧ (∀ (bytes : List ℕ) (r c : ℤ) (e : String),
      decodeAudioData bytes r c = .error e → e = "InvalidFormatError")
    ∧ (∀ r c : ℤ, 0 < r → 1 ≤ c →
      ∃ buf, decodeAudioData [] r c = .ok buf ∧ buf.frameCount = 0) := by
  refine ⟨?_, ?_, ?_⟩
  · intro bytes r c
    by_cases h : r ≤ 0 ∨ c < 1
    · rw [decodeAudioData, if_pos h]; exact iff_of_true rfl h
    · rw [decodeAudioData, if_neg h]; exact iff_of_false (by simp) h
  · intro bytes r c e he
    by_cases h : r ≤ 0 ∨ c < 1
    · rw [decodeAudioData, if_pos h] at he
      exact (Except.error.inj he).symm
    · rw [decodeAudioData, if_neg h] at he
      exact absurd he (by simp)
  · intro r c hr hc
    have h : ¬ (r ≤ 0 ∨ c < 1) := by omega
    rw [decodeAudioData, if_neg h]
    refine ⟨_, rfl, ?_⟩
    show (pcmSamples []).length / c.toNat = 0
    simp [pcmSamples]

/-- Witness for C5: a negative sample rate is rejected with
`InvalidFormatError`, and empty bytes at 24000 Hz mono decode to zero
frames. -/
theorem decodeAudioData_error_iff_witness :
    decodeAudioData [] (-1) 1 = .error "InvalidFormatError"
    ∧ (∃ buf, decodeAudioData [] 24000 1 = .ok buf ∧ buf.frameCount = 0) :=
  ⟨(decodeAudioData_error_iff.1 [] (-1) 1).2 (by decide),
   decodeAudioData_error_iff.2.2 24000 1 (by decide) (by decide)⟩

/-! ## Round-trip quantization (claim C6) -/

/-- C6 fails as stated: the in-range sample `122882/163835` (≈ 0.75004) in a
one-frame mono buffer encodes to PCM value 24576 and re-decodes to `3/4`,
which is `23/655340 > 1/32768` away from the original. -/
theorem wav_roundtrip_tolerance_counterexample :
    (-1 : ℚ) ≤ 122882/163835 ∧ (122882 : ℚ)/163835 ≤ 1
    ∧ pcmSamples ((audioBufferToWav ⟨24000, 1, 1, [[122882/163835]]⟩).drop 44)
        = [3/4]
    ∧ ¬ |(3 : ℚ)/4 - 122882/163835| ≤ 1/32768 := by
  refine ⟨by norm_num, by norm_num, ?_, by norm_num [abs]⟩
  rw [audioBufferToWav_drop]
  have hq : quantize (122882/163835) = 24576 := by rw [quantize]; norm_num [round_eq]
  have hil : interleave ⟨24000, 1, 1, [[122882/163835]]⟩ = [122882/163835] := by
    simp [interleave, sampleAt]
    rfl
  rw [hil, List.flatMap_cons, hq]
  show pcmSamples [0, 96] = [3/4]
  rw [pcmSamples_cons]
  norm_num [bytesToInt16LE, pcmSamples]

/-- Re-quantizing an in-range sample and normalizing back by 32768 moves it
by at most `3/65536 = 1.5/32768`. -/
theorem quantize_roundtrip_bound (s : ℚ) (h1 : -1 ≤ s) (h2 : s ≤ 1) :
    |((quantize s : ℤ) : ℚ) / 32768 - s| ≤ 3/65536 := by
  have hra := abs_le.mp (abs_sub_round (s * 32767))
  have hub : round (s * 32767) ≤ 32767 := by
    have h := round_le_add_half (s * 32767)
    have hlt : ((round (s * 32767) : ℤ) : ℚ) < 32768 := by linarith
    exact_mod_cast Int.lt_add_one_iff.mp (by exact_mod_cast hlt)
  have hlb : -32768 ≤ round (s * 32767) := by
    have h := sub_half_lt_round (s * 32767)
    have hgt : (-32768 : ℚ) < ((round (s * 32767) : ℤ) : ℚ) := by linarith
    have : (-32768 : ℤ) < round (s * 32767) := by exact_mod_cast hgt
    omega
  have hq : quantize s = round (s * 32767) := by
    rw [quantize, max_eq_right hlb, min_eq_right hub]
  rw [hq, abs_le]
  constructor <;> linarith [hra.1, hra.2]

/-- C6 amended: encoding an `AudioBuffer` whose samples lie in `[-1, 1]` and
re-decoding the PCM data section (little-endian int16 divided by 32768,
de-interleaved) reproduces every sample within `±3/65536` — a tolerance of
one-and-a-half quantization steps, not the claimed `±1/32768`. -/
theorem wav_roundtrip_quantization_bound (buf : AudioBuffer)
    (hs : ∀ i, i < buf.channelCount → ∀ f, f < buf.frameCount →
      -1 ≤ sampleAt buf i f ∧ sampleAt buf i f ≤ 1)
    (i f : ℕ) (hi : i < buf.channelCount) (hf : f < buf.frameCount) :
    |(pcmSamples ((audioBufferToWav buf).drop 44)).getD
        (f * buf.channelCount + i) 0 - sampleAt buf i f| ≤ 3/65536 := by
  rw [audioBufferToWav_drop, pcmSamples_sampleBytes]
  have hk : f * buf.channelCount + i < (interleave buf).length := by
    rw [interleave_length]
    calc f * buf.channelCount + i
        < f * buf.channelCount + buf.channelCount := by omega
      _ = (f + 1) * buf.channelCount := by ring
      _ ≤ buf.frameCount * buf.channelCount :=
          Nat.mul_le_mul_right _ (by omega)
  have hk' : f * buf.channelCount + i
      < ((interleave buf).map fun s => ((quantize s : ℤ) : ℚ) / 32768).length := by
    simpa using hk
  rw [List.getD_eq_getElem _ _ hk', List.getElem_map]
  have hix : (interleave buf)[f * buf.channelCount + i] = sampleAt buf i f := by
    rw [← List.getD_eq_getElem (interleave buf) 0 hk]
    exact interleave_getD buf i f hi hf
  rw [hix]
  exact quantize_roundtrip_bound _ (hs i hi f hf).1 (hs i hi f hf).2

/-- Witness for the amended C6 at a one-frame mono buffer holding `1/2`. -/
theorem wav_roundtrip_quantization_bound_witness :
    |(pcmSamples ((audioBufferToWav ⟨24000, 1, 1, [[1/2]]⟩).drop 44)).getD 0 0
      - sampleAt ⟨24000, 1, 1, [[1/2]]⟩ 0 0| ≤ 3/65536 :=
  wav_roundtrip_quantization_bound ⟨24000, 1, 1, [[1/2]]⟩
    (by
      intro i hi f hf
      have hi0 : i = 0 := by
        simpa using hi
      have hf0 : f = 0 := by
        simpa using hf
      subst hi0
      subst hf0
      constructor <;> norm_num [sampleAt])
    0 0 (by decide) (by decide)

/-! ## Base64 decoder (spec §4.1) and its inverse -/

/-- The standard base64 alphabet. -/
def base64Alphabet : List Char :=
  "ABCDEFGHIJKLMNOPQRSTUVWXYZabcdefghijklmnopqrstuvwxyz0123456789+/".toList

/-- The alphabet character for a 6-bit value. -/
def encChar (n : ℕ) : Char := base64Alphabet.getD n 'A'

/-- The 6-bit value of an alphabet character, `none` outside the alphabet. -/
def decChar (c : Char) : Option ℕ := base64Alphabet.indexOf? c

theorem decChar_encChar : ∀ n, n < 64 → decChar (encChar n) = some n := by decide

theorem encChar_ne_pad : ∀ n, n < 64 → encChar n ≠ '=' := by decide

/-- Standard base64 encoding of a byte sequence (three bytes per four
characters, the final group padded with `=`). -/
def b64EncodeChars : List ℕ → List Char
  | [] => []
  | [b0] => [encChar (b0 / 4), encChar (b0 % 4 * 16), '=', '=']
  | [b0, b1] =>
      [encChar (b0 / 4), encChar (b0 % 4 * 16 + b1 / 16), encChar (b1 % 16 * 4), '=']
  | b0 :: b1 :: b2 :: rest =>
      encChar (b0 / 4) :: encChar (b0 % 4 * 16 + b1 / 16)
        :: encChar (b1 % 16 * 4 + b2 / 64) :: encChar (b2 % 64) :: b64EncodeChars rest

/-- Modelled from the spec: the base64 `decode` of `src/utils/audioUtils.ts`
(file absent from the snapshot), on the character level.  Four characters at
a time; `=` padding is accepted only at the end; characters outside the
alphabet or an invalid length yield `none` (the spec's `DecodeError`) — the
decoder never silently truncates. -/
def b64DecodeChars : List Char → Option (List ℕ)
  | [] => some []
  | c0 :: c1 :: c2 :: c3 :: rest =>
      if c2 = '=' ∧ c3 = '=' ∧ rest = [] then
        match decChar c0, decChar c1 with
        | some d0, some d1 => some [d0 * 4 + d1 / 16]
        | _, _ => none
      else if c3 = '=' ∧ rest = [] then
        match decChar c0, decChar c1, decChar c2 with
        | some d0, some d1, some d2 => some [d0 * 4 + d1 / 16, d1 % 16 * 16 + d2 / 4]
        | _, _, _ => none
      else
        match decChar c0, decChar c1, decChar c2, decChar c3, b64DecodeChars rest with
        | some d0, some d1, some d2, some d3, some tail =>
            some ((d0 * 4 + d1 / 16) :: (d1 % 16 * 16 + d2 / 4)
              :: (d2 % 4 * 64 + d3) :: tail)
        | _, _, _, _, _ => none
  | _ => none

/-- Modelled from the spec: `decode` of `src/utils/audioUtils.ts` (file
absent from the snapshot), as a function on base64 strings. -/
def decode (s : String) : Option (List ℕ) := b64DecodeChars s.data

/-- Standard base64 encoding as a string, the reference inverse used to
state the round-trip property. -/
def base64_encode (B : List ℕ) : String := String.mk (b64EncodeChars B)

theorem b64_roundtrip : ∀ l : List ℕ, (∀ b ∈ l, b < 256) →
    b64DecodeChars (b64EncodeChars l) = some l := by
  intro l
  induction l using b64EncodeChars.induct with
  | case1 => intro _; rfl
  | case2 b0 =>
      intro hb
      have h0 : b0 < 256 := hb b0 (by simp)
      show b64DecodeChars [encChar (b0 / 4), encChar (b0 % 4 * 16), '=', '=']
        = some [b0]
      rw [b64DecodeChars]
      rw [if_pos ⟨rfl, rfl, rfl⟩]
      rw [decChar_encChar _ (by omega), decChar_encChar _ (by omega)]
      simp only [Option.some.injEq, List.cons.injEq, and_true]
      omega
  | case3 b0 b1 =>
      intro hb
      have h0 : b0 < 256 := hb b0 (by simp)
      have h1 : b1 < 256 := hb b1 (by simp)
      show b64DecodeChars [encChar (b0 / 4), encChar (b0 % 4 * 16 + b1 / 16),
        encChar (b1 % 16 * 4), '='] = some [b0, b1]
      rw [b64DecodeChars]
      rw [if_neg (by
        intro hcon
        exact encChar_ne_pad (b1 % 16 * 4) (by omega) hcon.1)]
      rw [if_pos ⟨rfl, rfl⟩]
      rw [decChar_encChar _ (by omega), decChar_encChar _ (by omega),
        decChar_encChar _ (by omega)]
      simp only [Option.some.injEq, List.cons.injEq, and_true]
      omega
  | case4 b0 b1 b2 rest ih =>
      intro hb
      have h0 : b0 < 256 := hb b0 (by simp)
      have h1 : b1 < 256 := hb b1 (by simp)
      have h2 : b2 < 256 := hb b2 (by simp)
      have hrest : ∀ b ∈ rest, b < 256 := by
        intro b hbm
        exact hb b (by simp [hbm])
      show b64DecodeChars (encChar (b0 / 4) :: encChar (b0 % 4 * 16 + b1 / 16)
        :: encChar (b1 % 16 * 4 + b2 / 64) :: encChar (b2 % 64)
        :: b64EncodeChars rest) = some (b0 :: b1 :: b2 :: rest)
      rw [b64DecodeChars]
      rw [if_neg (by
        intro hcon
        exact encChar_ne_pad (b1 % 16 * 4 + b2 / 64) (by omega) hcon.1)]
      rw [if_neg (by
        intro hcon
        exact encChar_ne_pad (b2 % 64) (by omega) hcon.1)]
      rw [decChar_encChar _ (by omega), decChar_encChar _ (by omega),
        decChar_encChar _ (by omega), decChar_encChar _ (by omega), ih hrest]
      simp only [Option.some.injEq, List.cons.injEq]
      exact ⟨by omega, by omega, by omega, trivial⟩

/-- C7: for every byte sequence `B`, `decode (base64_encode B) = B`, and the
decoded result's length equals the exact decoded size (no trailing padding
artifacts). -/
theorem base64_roundtrip (B : List ℕ) (hB : ∀ b ∈ B, b < 256) :
    decode (base64_encode B) = some B
    ∧ ∀ out, decode (base64_encode B) = some out → out.length = B.length := by
  have h : decode (base64_encode B) = some B := b64_roundtrip B hB
  refine ⟨h, ?_⟩
  intro out hout
  rw [h] at hout
  cases hout
  rfl

/-- Witness for C7 at the bytes of "Man". -/
theorem base64_roundtrip_witness :
    decode (base64_encode [77, 97, 110]) = some [77, 97, 110] :=
  (base64_roundtrip [77, 97, 110] (by decide)).1

/-! ## Application types (`src/types.ts`) -/

/-- From `src/types.ts`: a speaker (persona fields that the pipeline does
not consult are omitted). -/
structure Speaker where
  id : String
  name : String
  voice : String
deriving Repr, DecidableEq

/-- From `src/types.ts`: one dialogue segment. -/
structure Segment where
  id : String
  speakerId : String
  text : String
deriving Repr, DecidableEq

/-- From `src/components/VoiceSelector.tsx` (concatenated
`supabaseService`): the authenticated user, reduced to the fields
`handleGenerate` consults. -/
structure UserProfile where
  id : String
deriving Repr, DecidableEq

/-! ## Gemini service layer (`generateMultiSpeakerSpeech`) -/

/-- The TTS request that `generateMultiSpeakerSpeech` would send: either a
multi-speaker config (speaker name and voice per used speaker) or a
single-speaker config. -/
inductive TtsRequest where
  | multiSpeaker (prompt : String) (speakerVoiceConfigs : List (String × String))
  | singleSpeaker (prompt : String) (voice : String)
deriving Repr, DecidableEq

/-- From the source: `speaker?.name || 'Speaker'` for a segment's speaker id
(JavaScript treats the empty string as falsy). -/
def speakerLabel (speakers : List Speaker) (segSpeakerId : String) : String :=
  match speakers.find? (fun sp => sp.id == segSpeakerId) with
  | some sp => if sp.name = "" then "Speaker" else sp.name
  | none => "Speaker"

/-- From the source: the prompt is one `Name: text` line per segment. -/
def promptOf (segments : List Segment) (speakers : List Speaker) : String :=
  String.intercalate "\n"
    (segments.map fun seg => speakerLabel speakers seg.speakerId ++ ": " ++ seg.text)

/-- From the source: `Array.from(new Set(segments.map(s => s.speakerId)))`.
`List.dedup` keeps a different representative order than the insertion-order
JavaScript `Set`, but only membership and cardinality of this list are ever
consulted, and those agree. -/
def usedSpeakerIds (segments : List Segment) : List String :=
  (segments.map Segment.speakerId).dedup

/-- From the source: `speakers.filter(s => usedSpeakerIds.includes(s.id))`. -/
def usedSpeakers (segments : List Segment) (speakers : List Speaker) : List Speaker :=
  speakers.filter fun s => s.id ∈ usedSpeakerIds segments

/-- From `src/components/VoiceSelector.tsx` (concatenated `geminiService`):
`generateMultiSpeakerSpeech`, with the network call abstracted into the
returned request value — an `Except.error` is thrown before any request is
built or issued. -/
def generateMultiSpeakerSpeech (segments : List Segment) (speakers : List Speaker)
    (apiKey : String) : Except String TtsRequest :=
  if apiKey = "" then
    .error "Gemini API Key is missing. Please set it in Settings."
  else if (usedSpeakers segments speakers).length > 2 then
    .error "Maximum 2 characters allowed per audio generation."
  else if (usedSpeakers segments speakers).length = 0 then
    .error "No dialogue found."
  else if (usedSpeakers segments speakers).length = 2 then
    .ok (.multiSpeaker (promptOf segments speakers)
      ((usedSpeakers segments speakers).map fun s => (s.name, s.voice)))
  else
    .ok (.singleSpeaker (promptOf segments speakers)
      (((usedSpeakers segments speakers).headD ⟨"", "", ""⟩).voice))

/-! ## Application glue (`src/App.tsx` and the legacy single-speaker App) -/

/-- True when the JavaScript check `!s.trim()` holds, i.e. the string is
all whitespace.  (`String.trim` itself is modelled on the character level.) -/
def isBlank (s : String) : Bool := s.data.all Char.isWhitespace

/-- From `src/App.tsx` line 100:
`new Set(segments.map(s => s.speakerId)).size`. -/
def activeSpeakerCount (segments : List Segment) : ℕ :=
  (segments.map Segment.speakerId).dedup.length

/-- Outcome of one run of `handleGenerate` in `src/App.tsx`: an early exit
(key prompt, auth prompt, or error banner) or a completed generation,
recording the `sampleRate` and `channelCount` arguments passed to
`decodeAudioData` and the produced WAV bytes. -/
inductive GenOutcome where
  | showKeyPrompt
  | showAuth
  | errorMsg (msg : String)
  | generated (decodeSampleRate decodeChannelCount : ℤ) (wav : List ℕ)
deriving Repr, DecidableEq

/-- From `src/App.tsx` lines 227-248: `handleGenerate`, with the TTS network
response (`ttsResponse`, the base64 audio) abstracted as an input.  The
pipeline is

`decodeAudioData(decode(base64Audio), audioCtx, 24000, 1)` then
`audioBufferToWav(audioBuffer)`. -/
def handleGenerate (geminiKey : String) (user : Option UserProfile)
    (segments : List Segment) (speakers : List Speaker)
    (ttsResponse : String) : GenOutcome :=
  if geminiKey = "" then .showKeyPrompt
  else if user.isNone then .showAuth
  else if segments.any (fun s => isBlank s.text) then
    .errorMsg "Please fill in all dialogue boxes."
  else if activeSpeakerCount segments > 2 then
    .errorMsg "Maximum 2 characters allowed."
  else
    match generateMultiSpeakerSpeech segments speakers geminiKey with
    | .error msg => .errorMsg msg
    | .ok _req =>
        match decode ttsResponse with
        | none => .errorMsg "DecodeError"
        | some bytes =>
            match decodeAudioData bytes 24000 1 with
            | .error e => .errorMsg e
            | .ok buf => .generated 24000 1 (audioBufferToWav buf)

/-- Outcome of the legacy single-speaker `handleGenerate`
(`src/unnamed/part_000` lines 44-83): an error banner or playback, recording
the `decodeAudioData` arguments. -/
inductive LegacyOutcome where
  | errorMsg (msg : String)
  | played (decodeSampleRate decodeChannelCount : ℤ)
deriving Repr, DecidableEq

/-- From `src/unnamed/part_000`: the legacy `handleGenerate`, decoding the
TTS response with `decodeAudioData(audioData, audioCtx, 24000, 1)`. -/
def legacyHandleGenerate (text : String) (ttsResponse : String) : LegacyOutcome :=
  if isBlank text then .errorMsg "Please enter some text to read."
  else
    match decode ttsResponse with
    | none => .errorMsg "DecodeError"
    | some bytes =>
        match decodeAudioData bytes 24000 1 with
        | .error e => .errorMsg e
        | .ok _buf => .played 24000 1

/-- From the JavaScript `storyTitle.replace(/\s+/g, '_')`: each maximal run
of whitespace becomes a single underscore.  The flag records whether the
previous character was part of a whitespace run. -/
def replaceWsAux : Bool → List Char → List Char
  | _, [] => []
  | prevWs, c :: rest =>
      if c.isWhitespace then
        if prevWs then replaceWsAux true rest else '_' :: replaceWsAux true rest
      else c :: replaceWsAux false rest

/-- `storyTitle.replace(/\s+/g, '_')` on the character list of a string. -/
def replaceWsRuns (l : List Char) : List Char := replaceWsAux false l

/-- From `src/App.tsx` lines 294-302 (`handleDownload`):
`` a.download = `${storyTitle.replace(/\s+/g, '_')}_story.mp3` ``. -/
def downloadFilename (storyTitle : String) : String :=
  String.mk (replaceWsRuns storyTitle.data) ++ "_story.mp3"

/-! ## Claims about the application layer -/

/-- C8: whenever a generation completes — in the current `handleGenerate` of
`src/App.tsx` or the legacy one of `src/unnamed/part_000` — `decodeAudioData`
was invoked with `sampleRate = 24000` and `channelCount = 1`, never with
other values. -/
theorem decode_call_params :
    (∀ (geminiKey : String) (user : Option UserProfile) (segments : List Segment)
        (speakers : List Speaker) (ttsResponse : String) (r c : ℤ) (wav : List ℕ),
      handleGenerate geminiKey user segments speakers ttsResponse
        = .generated r c wav → r = 24000 ∧ c = 1)
    ∧ (∀ (text ttsResponse : String) (r c : ℤ),
      legacyHandleGenerate text ttsResponse = .played r c → r = 24000 ∧ c = 1) := by
  constructor
  · intro gk user segs spks tts r c wav h
    rw [handleGenerate] at h
    repeat' split at h
    all_goals first
      | exact GenOutcome.noConfusion h
      | (injection h with h1 h2 h3
         exact ⟨h1.symm, h2.symm⟩)
  · intro text tts r c h
    rw [legacyHandleGenerate] at h
    repeat' split at h
    all_goals first
      | exact LegacyOutcome.noConfusion h
      | (injection h with h1 h2
         exact ⟨h1.symm, h2.symm⟩)

/-- Witness for C8: one concrete completed generation through each code
path. -/
theorem decode_call_params_witness :
    ((24000 : ℤ) = 24000 ∧ (1 : ℤ) = 1) ∧ ((24000 : ℤ) = 24000 ∧ (1 : ℤ) = 1) :=
  ⟨decode_call_params.1 "key" (some ⟨"u"⟩) [⟨"seg1", "sp1", "hello"⟩]
      [⟨"sp1", "Alice", "Kore"⟩] "" 24000 1
      (audioBufferToWav ⟨24000, 1, 0, [[]]⟩) (by decide),
   decode_call_params.2 "hi" "" 24000 1 (by decide)⟩

/-- C9: the download target name is the story title with whitespace runs
replaced by underscores followed by `_story.mp3` — the extension is `.mp3`
even though the blob's bytes are a WAV container (they begin with "RIFF"). -/
theorem downloadFilename_mp3 :
    (∀ title : String,
      downloadFilename title = String.mk (replaceWsRuns title.data) ++ "_story.mp3"
      ∧ "_story.mp3".data <:+ (downloadFilename title).data)
    ∧ downloadFilename "My Bengali  Story" = "My_Bengali_Story_story.mp3"
    ∧ (∀ buf : AudioBuffer, (audioBufferToWav buf).take 4 = [82, 73, 70, 70]) := by
  refine ⟨?_, by decide, fun buf => rfl⟩
  intro title
  refine ⟨rfl, ⟨(String.mk (replaceWsRuns title.data)).data, ?_⟩⟩
  rw [downloadFilename, String.data_append]

/-- C10 fails as stated: three segments referencing three distinct speaker
ids, of which only two appear in the speakers list, make
`generateMultiSpeakerSpeech` issue a TTS request instead of failing — the
guard counts `usedSpeakers` (speakers filtered by referenced id), not
distinct referenced ids. -/
theorem generateMultiSpeakerSpeech_distinct_ids_counterexample :
    (usedSpeakerIds [⟨"s1", "a", "x"⟩, ⟨"s2", "b", "y"⟩, ⟨"s3", "c", "z"⟩]).length = 3
    ∧ generateMultiSpeakerSpeech
        [⟨"s1", "a", "x"⟩, ⟨"s2", "b", "y"⟩, ⟨"s3", "c", "z"⟩]
        [⟨"a", "Alice", "Kore"⟩, ⟨"b", "Bob", "Puck"⟩] "key"
      = .ok (.multiSpeaker "Alice: x\nBob: y\nSpeaker: z"
          [("Alice", "Kore"), ("Bob", "Puck")]) :=
  ⟨by decide, rfl⟩

/-- C10 amended: with a non-empty API key, `generateMultiSpeakerSpeech`
fails with "Maximum 2 characters allowed per audio generation." — before
any TTS request is built — whenever more than two of the *listed* speakers
are referenced by segments; and `handleGenerate` never reaches generation
when the segments reference more than two distinct speaker ids. -/
theorem generateMultiSpeakerSpeech_max_two :
    (∀ (segments : List Segment) (speakers : List Speaker) (apiKey : String),
      apiKey ≠ "" → (usedSpeakers segments speakers).length > 2 →
      generateMultiSpeakerSpeech segments speakers apiKey
        = .error "Maximum 2 characters allowed per audio generation.")
    ∧ (∀ (geminiKey : String) (user : Option UserProfile) (segments : List Segment)
        (speakers : List Speaker) (ttsResponse : String),
      activeSpeakerCount segments > 2 →
      ∀ r c wav, handleGenerate geminiKey user segments speakers ttsResponse
        ≠ .generated r c wav) := by
  constructor
  · intro segs spks key hkey h2
    rw [generateMultiSpeakerSpeech, if_neg hkey, if_pos h2]
  · intro gk user segs spks tts h2 r c wav heq
    rw [handleGenerate] at heq
    repeat' split at heq
    all_goals exact GenOutcome.noConfusion heq

/-- Witness for the amended C10: three listed speakers all referenced fail
with the per-generation message; `handleGenerate` with three distinct
referenced ids never generates. -/
theorem generateMultiSpeakerSpeech_max_two_witness :
    generateMultiSpeakerSpeech
        [⟨"s1", "a", "x"⟩, ⟨"s2", "b", "y"⟩, ⟨"s3", "c", "z"⟩]
        [⟨"a", "Alice", "Kore"⟩, ⟨"b", "Bob", "Puck"⟩, ⟨"c", "Carol", "Zephyr"⟩] "key"
      = .error "Maximum 2 characters allowed per audio generation."
    ∧ handleGenerate "key" (some ⟨"u"⟩)
        [⟨"s1", "a", "x"⟩, ⟨"s2", "b", "y"⟩, ⟨"s3", "c", "z"⟩] [] ""
      ≠ .generated 24000 1 [] :=
  ⟨generateMultiSpeakerSpeech_max_two.1
      [⟨"s1", "a", "x"⟩, ⟨"s2", "b", "y"⟩, ⟨"s3", "c", "z"⟩]
      [⟨"a", "Alice", "Kore"⟩, ⟨"b", "Bob", "Puck"⟩, ⟨"c", "Carol", "Zephyr"⟩] "key"
      (by decide) (by decide),
   generateMultiSpeakerSpeech_max_two.2 "key" (some ⟨"u"⟩)
      [⟨"s1", "a", "x"⟩, ⟨"s2", "b", "y"⟩, ⟨"s3", "c", "z"⟩] [] "" (by decide)
      24000 1 []⟩
